import Mathlib

/-!
Verification development for the openapi-mcp core: a shallow embedding of the
sample generator (src/openapi/sample-generator.ts), the spec accessor
(SpecService), the endpoint-key helpers (src/utils/helpers.ts), the error
taxonomy (src/utils/errors.ts) and the normalizer (src/openapi/extractor.ts),
together with theorems checking the specification's claims about them.

Modelling conventions:
* JavaScript objects and Maps are association lists in declaration/insertion
  order; `mapSet` mirrors both `Map.set` and property assignment (an existing
  key keeps its position, its value is replaced; a new key is appended).
* JSON values are the inductive `Json`; JavaScript numbers are modelled as
  `Int` (the claims under check never depend on non-integer arithmetic;
  `Math.floor` on this model is the identity and is noted where it occurs).
* A JSON schema is a `SchemaNode` whose child positions (`items`,
  `properties`, `allOf`, ...) are indices into an environment
  `SchemaEnv := Nat → SchemaNode`.  This represents the object graph the
  JavaScript code walks, including cyclic graphs (a node whose child index
  resolves back to itself), which an inductive tree could not express.
* The recursion-depth guard `if (depth > opts.maxDepth) return null` together
  with recursive calls at `depth + 1` is embedded as a structural countdown on
  the fuel `opts.maxDepth + 1 - depth`: fuel `0` is exactly `depth > maxDepth`
  and each recursive call decrements the fuel.
-/

namespace OpenApiMcp

/-- JSON values (the `unknown` payloads of the TypeScript code). -/
inductive Json where
  | null : Json
  | bool (b : Bool) : Json
  | num (n : Int) : Json
  | str (s : String) : Json
  | arr (elems : List Json) : Json
  | obj (fields : List (String × Json)) : Json
  deriving Repr

/-- JavaScript truthiness of a JSON value (`Boolean(x)`). -/
def jsTruthy : Json → Bool
  | .null => false
  | .bool b => b
  | .num n => n != 0
  | .str s => s != ""
  | .arr _ => true
  | .obj _ => true

mutual
/-- JavaScript `String(x)` conversion on `Json` values.  Array elements render
by joining their own conversions with commas, `null` elements becoming the
empty string; plain objects render as the fixed tag.  (Only reachable from
`generateString`/`generateNumber`/`generateBoolean` branches that the main
generator short-circuits, see the comments there.) -/
def jsString : Json → String
  | .null => "null"
  | .bool b => cond b "true" "false"
  | .num n => toString n
  | .str s => s
  | .arr elems => jsStringElems elems
  | .obj _ => "[object Object]"

def jsStringElems : List Json → String
  | [] => ""
  | [x] => jsStringElem x
  | x :: y :: rest => jsStringElem x ++ "," ++ jsStringElems (y :: rest)

def jsStringElem : Json → String
  | .null => ""
  | .bool b => jsString (.bool b)
  | .num n => jsString (.num n)
  | .str s => jsString (.str s)
  | .arr elems => jsString (.arr elems)
  | .obj fields => jsString (.obj fields)
end

/-- JavaScript `Number(x)` conversion, restricted to the integer model.
Strings that do not parse as integers (JavaScript would yield `NaN`) map to 0;
this branch is unreachable from `generateSample`, which returns
`example`/`default`/`enum` values before the number generator ever sees them. -/
def jsNumber : Json → Int
  | .null => 0
  | .bool b => cond b 1 0
  | .num n => n
  | .str s => (s.trim.toInt?).getD 0
  | .arr _ => 0
  | .obj _ => 0

/-- The `type` field of a JSON schema: a single name or an array of names. -/
inductive TypeField where
  | single (s : String) : TypeField
  | list (l : List String) : TypeField
  deriving Repr

/-- One JSON-schema node (interface `JsonSchema` in src/types/openapi.ts).
Child schemas are indices into a `SchemaEnv`.  Absent fields are `none`. -/
structure SchemaNode where
  type? : Option TypeField := none
  format? : Option String := none
  title? : Option String := none
  description? : Option String := none
  default? : Option Json := none
  example? : Option Json := none
  enum? : Option (List Json) := none
  const? : Option Json := none
  properties? : Option (List (String × Nat)) := none
  required? : Option (List String) := none
  items? : Option Nat := none
  minItems? : Option Nat := none
  maxItems? : Option Nat := none
  minLength? : Option Nat := none
  maxLength? : Option Nat := none
  minimum? : Option Int := none
  maximum? : Option Int := none
  exclusiveMinimum? : Option Int := none
  exclusiveMaximum? : Option Int := none
  allOf? : Option (List Nat) := none
  anyOf? : Option (List Nat) := none
  oneOf? : Option (List Nat) := none
  nullable : Bool := false
  deriving Repr

/-- The schema object graph: every index denotes a node.  Cyclic schemas are
environments where following child indices returns to an earlier node. -/
abbrev SchemaEnv : Type := Nat → SchemaNode

/-- Model of `GenerateOptions` of sample-generator.ts (all fields optional). -/
structure GenerateOptions where
  includeOptional : Option Bool := none
  maxArrayItems : Option Nat := none
  maxDepth : Option Nat := none

/-- The options record after merging with `DEFAULT_OPTIONS`. -/
structure ResolvedOptions where
  includeOptional : Bool
  maxArrayItems : Nat
  maxDepth : Nat
  deriving Repr

def DEFAULT_OPTIONS : ResolvedOptions :=
  { includeOptional := false, maxArrayItems := 2, maxDepth := 10 }

/-- Merge `{ ...DEFAULT_OPTIONS, ...options }`: a present field wins over the
default. -/
def resolveOptions (options : GenerateOptions) : ResolvedOptions :=
  { includeOptional := options.includeOptional.getD DEFAULT_OPTIONS.includeOptional,
    maxArrayItems := options.maxArrayItems.getD DEFAULT_OPTIONS.maxArrayItems,
    maxDepth := options.maxDepth.getD DEFAULT_OPTIONS.maxDepth }

/-- The `while (value.length < minLen) value += "_"` padding loop of
`generateString` (string length is code units; all literals involved are
ASCII, where Lean's `String.length` agrees). -/
def padUnderscore (value : String) (minLen : Nat) : String :=
  value ++ String.mk (List.replicate (minLen - value.length) '_')

/-- Model of `generateString` of sample-generator.ts.  The example/default/enum
branches convert with JavaScript `String()`; they are unreachable through
`generateSample`, which returns those fields before dispatching on type. -/
def generateString (schema : SchemaNode) : String :=
  match schema.example? with
  | some v => jsString v
  | none =>
  match schema.default? with
  | some v => jsString v
  | none =>
  match schema.enum? with
  | some (v :: _) => jsString v
  | _ =>
  match schema.format? with
  | some "email" => "user@example.com"
  | some "uri" => "https://example.com"
  | some "url" => "https://example.com"
  | some "date" => "2024-01-15"
  | some "date-time" => "2024-01-15T10:30:00Z"
  | some "time" => "10:30:00"
  | some "uuid" => "550e8400-e29b-41d4-a716-446655440000"
  | some "hostname" => "example.com"
  | some "ipv4" => "192.168.1.1"
  | some "ipv6" => "2001:0db8:85a3:0000:0000:8a2e:0370:7334"
  | some "byte" => "SGVsbG8gV29ybGQ="
  | some "binary" => "<binary data>"
  | some "password" => "********"
  | _ => padUnderscore "string" (schema.minLength?.getD 0)

/-- Model of `generateNumber` of sample-generator.ts on the integer model.
`Math.floor((min + max) / 2)` is `Int.fdiv (min + max) 2` (floor division). -/
def generateNumber (schema : SchemaNode) : Int :=
  match schema.example? with
  | some v => jsNumber v
  | none =>
  match schema.default? with
  | some v => jsNumber v
  | none =>
  match schema.enum? with
  | some (v :: _) => jsNumber v
  | _ =>
    let lo := schema.minimum?.getD (schema.exclusiveMinimum?.getD 0)
    let hi := schema.maximum?.getD (schema.exclusiveMaximum?.getD (lo + 100))
    if schema.minimum?.isSome then lo
    else Int.fdiv (lo + hi) 2

/-- Model of `generateInteger`: `Math.floor(generateNumber(schema))`, the identity on
the integer model. -/
def generateInteger (schema : SchemaNode) : Int :=
  generateNumber schema

/-- Model of `generateBoolean` of sample-generator.ts; the example/default branches
are unreachable through `generateSample` (see `generateString`). -/
def generateBoolean (schema : SchemaNode) : Bool :=
  match schema.example? with
  | some v => jsTruthy v
  | none =>
  match schema.default? with
  | some v => jsTruthy v
  | none => false

/-- JavaScript `Map.set` / property assignment on an insertion-ordered
association list: an existing key keeps its position and takes the new value,
a fresh key is appended. -/
def mapSet {α : Type} (m : List (String × α)) (key : String) (v : α) : List (String × α) :=
  match m with
  | [] => [(key, v)]
  | (k, w) :: rest => if k = key then (k, v) :: rest else (k, w) :: mapSet rest key v

/-- JavaScript `Map.get` / property read on the association-list model. -/
def jsGet {α : Type} (m : List (String × α)) (key : String) : Option α :=
  match m with
  | [] => none
  | (k, v) :: rest => if k = key then some v else jsGet rest key

/-- The values list `Array.from(map.values())`. -/
def mapValues {α : Type} (m : List (String × α)) : List α :=
  m.map Prod.snd

/-- Model of `Object.assign(target, source)` for an object source. -/
def objAssign (target source : List (String × Json)) : List (String × Json) :=
  source.foldl (fun acc kv => mapSet acc kv.1 kv.2) target

/-- One step of the `allOf` merge loop: `Object.assign(merged, sample)` when
`typeof sample === "object" && sample !== null`.  For an array sample the own
enumerable properties are its index keys. -/
def assignSample (merged : List (String × Json)) (sample : Json) : List (String × Json) :=
  match sample with
  | .obj fields => objAssign merged fields
  | .arr elems => objAssign merged (elems.enum.map (fun p => (toString p.1, p.2)))
  | _ => merged

/-- The selector `Array.isArray(schema.type) ? schema.type[0] : schema.type` — the value
the `switch` dispatches on (`none` when it is `undefined`, e.g. for an empty
type array). -/
def typeHead : Option TypeField → Option String
  | none => none
  | some (.single s) => some s
  | some (.list l) => l.head?

/-- JavaScript falsiness of the `type` field (`!schema.type`): absent or the
empty string; an array — even empty — is truthy. -/
def typeFalsy : Option TypeField → Bool
  | none => true
  | some (.single s) => s == ""
  | some (.list _) => false

/-- The property loop of the object (and default) case: for each declared
property in order, when it is required or `includeOptional` is set, assign
`result[key] = generateSample(propSchema, opts, depth + 1)`. -/
def genPropsGo (includeOpt : Bool) (required : List String) (child : Nat → Json)
    (acc : List (String × Json)) : List (String × Nat) → List (String × Json)
  | [] => acc
  | (key, idx) :: rest =>
    if required.contains key || includeOpt then
      genPropsGo includeOpt required child (mapSet acc key (child idx)) rest
    else
      genPropsGo includeOpt required child acc rest

/-- The body of `generateSample` below the depth guard, with the recursive
call abstracted as `child` (each recursive call in the source runs at
`depth + 1`, i.e. with one unit of fuel less). -/
def genStep (child : Nat → Json) (opts : ResolvedOptions) (schema : SchemaNode) : Json :=
  match schema.example? with
  | some v => v
  | none =>
  match schema.default? with
  | some v => v
  | none =>
  match schema.const? with
  | some v => v
  | none =>
  match schema.enum? with
  | some (v :: _) => v
  | _ =>
  if schema.nullable && typeFalsy schema.type? then .null
  else
  match schema.allOf? with
  | some (s :: rest) =>
    .obj ((s :: rest).foldl (fun merged idx => assignSample merged (child idx)) [])
  | _ =>
  match schema.oneOf? with
  | some (b :: _) => child b
  | _ =>
  match schema.anyOf? with
  | some (b :: _) => child b
  | _ =>
  match typeHead schema.type? with
  | some "string" => .str (generateString schema)
  | some "number" => .num (generateNumber schema)
  | some "integer" => .num (generateInteger schema)
  | some "boolean" => .bool (generateBoolean schema)
  | some "null" => .null
  | some "array" =>
    (match schema.items? with
     | none => .arr []
     | some itemsIdx =>
       let count := schema.minItems?.getD (min 1 opts.maxArrayItems)
       .arr (List.replicate count (child itemsIdx)))
  | some "object" =>
    .obj (genPropsGo opts.includeOptional (schema.required?.getD []) child [] (schema.properties?.getD []))
  | _ =>
    match schema.properties? with
    | some props =>
      .obj (genPropsGo opts.includeOptional (schema.required?.getD []) child [] props)
    | none => .null

/-- Model of `generateSample` with the depth guard expressed as fuel: fuel `0` is
exactly the guarded case `depth > opts.maxDepth`, which returns the null
placeholder; otherwise the body runs with child calls at one unit less. -/
def genAux (env : SchemaEnv) (opts : ResolvedOptions) : Nat → SchemaNode → Json
  | 0, _ => .null
  | fuel + 1, schema => genStep (fun idx => genAux env opts fuel (env idx)) opts schema

/-- Model of `generateSample(schema, options, depth)` of sample-generator.ts over the
schema graph `env`.  The merged options are recomputed at each level in the
source; merging resolved options is the identity, so they are resolved once
here.  The fuel `maxDepth + 1 - depth` makes the recursion structural: it is
`0` exactly when `depth > maxDepth`. -/
def generateSample (env : SchemaEnv) (schema : SchemaNode)
    (options : GenerateOptions) (depth : Nat) : Json :=
  let opts := resolveOptions options
  genAux env opts (opts.maxDepth + 1 - depth) schema

/-! ## Helpers (src/utils/helpers.ts) -/

/-- Membership `s.includes(c)` / `String.contains`, written over the character list so
that it computes by kernel reduction. -/
def containsChar (s : String) (c : Char) : Bool :=
  s.toList.any (fun ch => ch == c)

/-- Model of `toUpperCase()` over the character list (ASCII use only). -/
def toUpperStr (s : String) : String :=
  String.mk (s.toList.map Char.toUpper)

/-- Model of `normalizeMethod`: lowercase the HTTP method.  JavaScript `toLowerCase()`
agrees with per-character `Char.toLower` on the ASCII method names this code
deals in; the character-list form is used so that it computes by kernel
reduction (core `String.toLower` recurses on byte positions, which does
not). -/
def normalizeMethod (method : String) : String :=
  String.mk (method.toList.map Char.toLower)

/-- Model of `normalizePath`: ensure a leading slash (`startsWith "/"` is exactly
"first character is a slash"). -/
def normalizePath (path : String) : String :=
  if path.toList.head? = some '/' then path else "/" ++ path

/-- Model of `createEndpointKey`: the composite index key `"<method> <path>"`. -/
def createEndpointKey (method : String) (path : String) : String :=
  normalizeMethod method ++ " " ++ normalizePath path

/-- The regex `^p$` built by `matchesStatusCode` from a pattern `p` with each
`X` replaced by `\d`: same length, every `X` position a digit, every other
position equal.  (Status-code keys contain no other regex metacharacters;
characters such as `.` are matched literally in this model.) -/
def wildcardMatches (actual pattern : String) : Bool :=
  actual.length == pattern.length &&
    (actual.toList.zip pattern.toList).all
      (fun ap => if ap.2 == 'X' then ap.1.isDigit else ap.1 == ap.2)

/-- Model of `matchesStatusCode(actual, pattern)`: exact equality, else — only when the
pattern contains an `X` — the anchored wildcard regex test. -/
def matchesStatusCode (actual pattern : String) : Bool :=
  if actual == pattern then true
  else if containsChar pattern 'X' then wildcardMatches actual pattern
  else false

/-! ## Errors (src/utils/errors.ts) -/

/-- The `OpenAPIError` taxonomy; each constructor carries the context the
corresponding class stores (only the first two are raised by the embedded
operations). -/
inductive OpenAPIErr where
  | specNotLoaded : OpenAPIErr
  | endpointNotFound (path method : String) : OpenAPIErr
  | schemaNotFound (message : String) : OpenAPIErr
  | validationFailed (message : String) : OpenAPIErr
  | specLoadError (message : String) : OpenAPIErr
  | invalidInput (message : String) : OpenAPIErr
  deriving Repr, DecidableEq

/-! ## Parsed model (src/types/openapi.ts) -/

structure ExampleObject where
  summary? : Option String := none
  description? : Option String := none
  value : Json
  deriving Repr

structure MediaType where
  schema : SchemaNode
  example? : Option Json := none
  examples? : Option (List (String × ExampleObject)) := none
  deriving Repr

structure ResponseDefinition where
  statusCode : String
  description : String
  content? : Option (List (String × MediaType)) := none
  deriving Repr

structure RequestBody where
  required : Bool
  description : String
  content : List (String × MediaType)
  deriving Repr

/-- A normalized parameter.  The TypeScript field `in` is a reserved word in
Lean and is called `inLoc` here. -/
structure Parameter where
  name : String
  inLoc : String
  required : Bool
  deprecated : Bool
  schema : SchemaNode
  description : String
  example? : Option Json := none
  deriving Repr

/-- One security-requirement alternative: scheme name to scope list. -/
abbrev SecurityRequirement : Type := List (String × List String)

structure OAuthFlow where
  authorizationUrl? : Option String := none
  tokenUrl? : Option String := none
  refreshUrl? : Option String := none
  scopes : List (String × String) := []
  deriving Repr

structure SecurityScheme where
  name : String
  type : String
  description? : Option String := none
  inLoc? : Option String := none
  parameterName? : Option String := none
  scheme? : Option String := none
  bearerFormat? : Option String := none
  flows? : Option (List (String × OAuthFlow)) := none
  openIdConnectUrl? : Option String := none
  deriving Repr

structure ServerVariable where
  default : String
  description? : Option String := none
  enum? : Option (List String) := none
  deriving Repr

structure ServerInfo where
  url : String
  description? : Option String := none
  variables? : Option (List (String × ServerVariable)) := none
  deriving Repr

structure ContactInfo where
  name? : Option String := none
  url? : Option String := none
  email? : Option String := none
  deriving Repr

structure LicenseInfo where
  name : String
  url? : Option String := none
  deriving Repr

structure SpecInfo where
  title : String
  description? : Option String := none
  version : String
  termsOfService? : Option String := none
  contact? : Option ContactInfo := none
  license? : Option LicenseInfo := none
  deriving Repr

structure Endpoint where
  path : String
  method : String
  operationId? : Option String := none
  summary : String := ""
  description : String := ""
  tags : List String := []
  deprecated : Bool := false
  parameters : List Parameter := []
  requestBody? : Option RequestBody := none
  responses : List (String × ResponseDefinition) := []
  security : List SecurityRequirement := []
  deriving Repr

/-! ## Input document model (the already-dereferenced OpenAPI document the
extractor consumes).  Absent JavaScript fields are `none`; non-object values
where the code demands objects (`isPlainObject` guards) are not representable
in this typed model and noted at their use sites. -/

/-- A raw entry of a media type's `examples` map: the extractor keeps it only
when it is a plain object with a `value` key. -/
inductive RawExample where
  | wellFormed (summary? : Option String) (description? : Option String) (value : Json) : RawExample
  | malformed : RawExample
  deriving Repr

structure InputMediaType where
  schema? : Option SchemaNode := none
  example? : Option Json := none
  examples? : Option (List (String × RawExample)) := none
  deriving Repr

/-- A raw response entry (2.0 or 3.x fields).  The extractor processes it only
when `description?` is present (`"description" in response`). -/
structure InputResponse where
  description? : Option String := none
  schema? : Option SchemaNode := none
  examplesV2? : Option (List (String × Json)) := none
  content? : Option (List (String × InputMediaType)) := none
  deriving Repr

/-- A raw parameter (2.0 or 3.x).  `type?` through `items?` are the
OpenAPI 2.0 inline-schema fields; `isSwagger2Param` is `type?.isSome`. -/
structure InputParameter where
  name : String
  inLoc : String
  required? : Option Bool := none
  deprecated? : Option Bool := none
  schema? : Option SchemaNode := none
  description? : Option String := none
  example? : Option Json := none
  type? : Option String := none
  format? : Option String := none
  enum? : Option (List Json) := none
  default? : Option Json := none
  minimum? : Option Int := none
  maximum? : Option Int := none
  items? : Option Nat := none
  deriving Repr

structure InputRequestBody where
  required? : Option Bool := none
  description? : Option String := none
  content? : Option (List (String × InputMediaType)) := none
  deriving Repr

structure InputOperation where
  operationId? : Option String := none
  summary? : Option String := none
  description? : Option String := none
  tags? : Option (List String) := none
  deprecated? : Option Bool := none
  parameters? : Option (List InputParameter) := none
  requestBody? : Option InputRequestBody := none
  responses? : Option (List (String × InputResponse)) := none
  security? : Option (List SecurityRequirement) := none
  deriving Repr

structure PathItem where
  parameters? : Option (List InputParameter) := none
  get? : Option InputOperation := none
  post? : Option InputOperation := none
  put? : Option InputOperation := none
  patch? : Option InputOperation := none
  delete? : Option InputOperation := none
  options? : Option InputOperation := none
  head? : Option InputOperation := none
  trace? : Option InputOperation := none
  deriving Repr

/-- The operation `pathItem[method]` for the eight recognized methods. -/
def PathItem.opFor (item : PathItem) : String → Option InputOperation
  | "get" => item.get?
  | "post" => item.post?
  | "put" => item.put?
  | "patch" => item.patch?
  | "delete" => item.delete?
  | "options" => item.options?
  | "head" => item.head?
  | "trace" => item.trace?
  | _ => none

/-- A raw security scheme (2.0 `flow`/`scopes` fields and 3.x `flows`). -/
structure InputSecurityScheme where
  type : String
  description? : Option String := none
  inLoc? : Option String := none
  name? : Option String := none
  scheme? : Option String := none
  bearerFormat? : Option String := none
  flows? : Option (List (String × OAuthFlow)) := none
  flow? : Option String := none
  authorizationUrl? : Option String := none
  tokenUrl? : Option String := none
  scopes? : Option (List (String × String)) := none
  openIdConnectUrl? : Option String := none
  deriving Repr

structure InputInfo where
  title : String
  description? : Option String := none
  version : String
  termsOfService? : Option String := none
  contact? : Option ContactInfo := none
  license? : Option LicenseInfo := none
  deriving Repr

structure Components where
  schemas? : Option (List (String × SchemaNode)) := none
  securitySchemes? : Option (List (String × InputSecurityScheme)) := none
  deriving Repr

structure OpenAPIDocument where
  openapi? : Option String := none
  swagger? : Option String := none
  info : InputInfo
  servers? : Option (List ServerInfo) := none
  host? : Option String := none
  basePath? : Option String := none
  schemes? : Option (List String) := none
  paths? : Option (List (String × PathItem)) := none
  components? : Option Components := none
  definitions? : Option (List (String × SchemaNode)) := none
  securityDefinitions? : Option (List (String × InputSecurityScheme)) := none
  security? : Option (List SecurityRequirement) := none
  deriving Repr

structure ParsedSpec where
  raw : OpenAPIDocument
  version : String
  info : SpecInfo
  servers : List ServerInfo
  endpoints : List (String × Endpoint)
  schemas : List (String × SchemaNode)
  securitySchemes : List SecurityScheme
  loadedAt : Nat
  source : String
  deriving Repr

/-! ## Extractor (src/openapi/extractor.ts) -/

/-- JavaScript `a || d` on an optional string: the default replaces both an
absent value and the (falsy) empty string. -/
def jsOrString (s : Option String) (d : String) : String :=
  match s with
  | some v => if v == "" then d else v
  | none => d

def HTTP_METHODS : List String :=
  ["get", "post", "put", "patch", "delete", "options", "head", "trace"]

/-- Model of `isSwagger2`: the document carries `swagger: "2.0"`. -/
def isSwagger2 (doc : OpenAPIDocument) : Bool :=
  doc.swagger? == some "2.0"

def extractSpecInfo (doc : OpenAPIDocument) : SpecInfo :=
  { title := doc.info.title,
    description? := doc.info.description?,
    version := doc.info.version,
    termsOfService? := doc.info.termsOfService?,
    contact? := doc.info.contact?,
    license? := doc.info.license? }

/-- Model of `extractServers`: 2.0 synthesizes one server per scheme from
`host`/`basePath` (`host || "localhost"` and `basePath || ""` are JavaScript
`||`, so an empty host also falls back; `schemes || ["https"]` only replaces
an absent list, an empty array being truthy); 3.x copies the `servers` list,
whose per-field copy is the identity on this model. -/
def extractServers (doc : OpenAPIDocument) : List ServerInfo :=
  if isSwagger2 doc then
    let host := jsOrString doc.host? "localhost"
    let basePath := doc.basePath?.getD ""
    let schemes := doc.schemes?.getD ["https"]
    schemes.map (fun scheme =>
      { url := scheme ++ "://" ++ host ++ basePath,
        description? := some (toUpperStr scheme ++ " server") })
  else
    doc.servers?.getD []

/-- Model of `toJsonSchema`: an absent schema becomes the empty schema object. -/
def toJsonSchema (schema : Option SchemaNode) : SchemaNode :=
  schema.getD {}

/-- Model of `extractParameter`: a `schema` property wins; otherwise an OpenAPI 2.0
parameter (one carrying a `type` field) has its inline schema fields wrapped
into a schema node; otherwise the schema is empty. -/
def extractParameter (param : InputParameter) : Parameter :=
  let schema : SchemaNode :=
    match param.schema? with
    | some s => s
    | none =>
      if param.type?.isSome then
        { type? := param.type?.map TypeField.single,
          format? := param.format?,
          enum? := param.enum?,
          default? := param.default?,
          minimum? := param.minimum?,
          maximum? := param.maximum?,
          items? := param.items? }
      else {}
  { name := param.name,
    inLoc := param.inLoc,
    required := param.required?.getD false,
    deprecated := param.deprecated?.getD false,
    schema := schema,
    description := param.description?.getD "",
    example? := param.example? }

/-- Model of `extractRequestBodyFromSwagger2`: the first parameter with location
`body`, wrapped as a synthetic `application/json` media type. -/
def extractRequestBodyFromSwagger2 (params : List InputParameter) : Option RequestBody :=
  match params.find? (fun p => p.inLoc == "body") with
  | none => none
  | some bodyParam =>
    some
      { required := bodyParam.required?.getD false,
        description := bodyParam.description?.getD "",
        content := [("application/json", { schema := toJsonSchema bodyParam.schema?, example? := none })] }

/-- The `examples` map filtering shared by 3.x request bodies and responses:
keep entries that are plain objects with a `value` key. -/
def extractExamples (examples : Option (List (String × RawExample))) :
    Option (List (String × ExampleObject)) :=
  match examples with
  | none => none
  | some entries =>
    some (entries.foldl
      (fun m kv =>
        match kv.2 with
        | .wellFormed s d v => mapSet m kv.1 { summary? := s, description? := d, value := v }
        | .malformed => m)
      [])

def extractMediaType (mt : InputMediaType) : MediaType :=
  { schema := toJsonSchema mt.schema?,
    example? := mt.example?,
    examples? := extractExamples mt.examples? }

/-- Model of `extractRequestBodyFromV3`. -/
def extractRequestBodyFromV3 (reqBody : InputRequestBody) : RequestBody :=
  { required := reqBody.required?.getD false,
    description := reqBody.description?.getD "",
    content :=
      match reqBody.content? with
      | none => []
      | some entries => entries.foldl (fun m kv => mapSet m kv.1 (extractMediaType kv.2)) [] }

/-- Model of `extractResponse`: 2.0 wraps a direct `schema` as `application/json` with
the matching example; 3.x copies the `content` map; an empty content map
becomes an absent one. -/
def extractResponse (statusCode : String) (response : InputResponse) (isV2 : Bool) :
    ResponseDefinition :=
  let content : List (String × MediaType) :=
    if isV2 then
      match response.schema? with
      | some s =>
        [("application/json",
          { schema := s, example? := response.examplesV2?.bind (fun m => jsGet m "application/json") })]
      | none => []
    else
      match response.content? with
      | none => []
      | some entries => entries.foldl (fun m kv => mapSet m kv.1 (extractMediaType kv.2)) []
  { statusCode := statusCode,
    description := response.description?.getD "",
    content? := if content.isEmpty then none else some content }

/-- The dedup key `` `${param.in}:${param.name}` ``. -/
def paramKey (param : InputParameter) : String :=
  param.inLoc ++ ":" ++ param.name

/-- Model of `extractEndpoint`: merge path-level and operation-level parameters,
filter out `body` parameters, deduplicate by `paramKey` via `mapSet`,
collect well-formed responses, and build the request body per dialect. -/
def extractEndpoint (path : String) (method : String) (operation : InputOperation)
    (pathParams : List InputParameter) (isV2 : Bool) : Endpoint :=
  let opParams := operation.parameters?.getD []
  let allParams := pathParams ++ opParams
  let nonBodyParams := allParams.filter (fun p => p.inLoc != "body")
  let paramMap := nonBodyParams.foldl (fun m p => mapSet m (paramKey p) p) []
  let responses := (operation.responses?.getD []).foldl
    (fun m kv =>
      if kv.2.description?.isSome then
        mapSet m kv.1 (extractResponse kv.1 kv.2 isV2)
      else m)
    []
  let requestBody :=
    if isV2 then extractRequestBodyFromSwagger2 allParams
    else operation.requestBody?.map extractRequestBodyFromV3
  { path := path,
    method := method,
    operationId? := operation.operationId?,
    summary := operation.summary?.getD "",
    description := operation.description?.getD "",
    tags := operation.tags?.getD [],
    deprecated := operation.deprecated?.getD false,
    parameters := (mapValues paramMap).map extractParameter,
    requestBody? := requestBody,
    responses := responses,
    security := operation.security?.getD [] }

/-- Model of `extractSecuritySchemes`: 2.0 reads `securityDefinitions` and lifts the
single `flow`/`scopes` pair into the 3.x flow map (an empty flow name is
falsy and yields no flow map); 3.x reads `components.securitySchemes`. -/
def extractSecuritySchemes (doc : OpenAPIDocument) : List SecurityScheme :=
  if isSwagger2 doc then
    ((doc.securityDefinitions?.getD []).map (fun kv =>
      { name := kv.1,
        type := kv.2.type,
        description? := kv.2.description?,
        inLoc? := kv.2.inLoc?,
        parameterName? := kv.2.name?,
        scheme? := none,
        bearerFormat? := none,
        flows? :=
          match kv.2.flow? with
          | some flowName =>
            if flowName == "" then none
            else some [(flowName,
              { authorizationUrl? := kv.2.authorizationUrl?,
                tokenUrl? := kv.2.tokenUrl?,
                scopes := kv.2.scopes?.getD [] })]
          | none => none,
        openIdConnectUrl? := none }))
  else
    match doc.components? with
    | none => []
    | some components =>
      ((components.securitySchemes?.getD []).map (fun kv =>
        { name := kv.1,
          type := kv.2.type,
          description? := kv.2.description?,
          inLoc? := kv.2.inLoc?,
          parameterName? := kv.2.name?,
          scheme? := kv.2.scheme?,
          bearerFormat? := kv.2.bearerFormat?,
          flows? := kv.2.flows?,
          openIdConnectUrl? := kv.2.openIdConnectUrl? }))

/-- Model of `extractSchemas`: 2.0 `definitions`, 3.x `components.schemas`. -/
def extractSchemas (doc : OpenAPIDocument) : List (String × SchemaNode) :=
  if isSwagger2 doc then
    (doc.definitions?.getD []).foldl (fun m kv => mapSet m kv.1 kv.2) []
  else
    match doc.components? with
    | none => []
    | some components =>
      (components.schemas?.getD []).foldl (fun m kv => mapSet m kv.1 kv.2) []

/-- Model of `buildParsedSpec(document, source)`.  `Date.now()` is passed explicitly
as `now`.  Path items are objects in this typed model, so the
`isPlainObject(pathItem)` skip has no representable failing case. -/
def buildParsedSpec (document : OpenAPIDocument) (source : String) (now : Nat) : ParsedSpec :=
  let isV2 := isSwagger2 document
  let endpoints := (document.paths?.getD []).foldl
    (fun eps pathEntry =>
      let pathParams := pathEntry.2.parameters?.getD []
      HTTP_METHODS.foldl
        (fun eps method =>
          match pathEntry.2.opFor method with
          | none => eps
          | some operation =>
            mapSet eps (createEndpointKey method pathEntry.1)
              (extractEndpoint pathEntry.1 method operation pathParams isV2))
        eps)
    []
  let version := jsOrString document.openapi? (jsOrString document.swagger? "unknown")
  { raw := document,
    version := version,
    info := extractSpecInfo document,
    servers := extractServers document,
    endpoints := endpoints,
    schemas := extractSchemas document,
    securitySchemes := extractSecuritySchemes document,
    loadedAt := now,
    source := source }

/-! ## SpecService (the accessor half of src/openapi; the asynchronous
`loadSpec` delegates to the external loader and is out of the embedded
scope).  Thrown `OpenAPIError`s are the `Except` error channel; the
service's `currentSpec` field is the `Option ParsedSpec` argument. -/

def getSpec (state : Option ParsedSpec) : Except OpenAPIErr ParsedSpec :=
  match state with
  | none => .error .specNotLoaded
  | some spec => .ok spec

def isLoaded (state : Option ParsedSpec) : Bool :=
  state.isSome

def getEndpoints (state : Option ParsedSpec) : Except OpenAPIErr (List (String × Endpoint)) :=
  match getSpec state with
  | .error e => .error e
  | .ok spec => .ok spec.endpoints

def getEndpoint (state : Option ParsedSpec) (path method : String) :
    Except OpenAPIErr Endpoint :=
  match getSpec state with
  | .error e => .error e
  | .ok spec =>
    match jsGet spec.endpoints (createEndpointKey method path) with
    | none => .error (.endpointNotFound (normalizePath path) (normalizeMethod method))
    | some endpoint => .ok endpoint

structure RequestSchemaResult where
  schema : SchemaNode
  contentType : String
  required : Bool
  description : String
  deriving Repr

/-- The body of `getRequestSchema` below its `getEndpoint` call (the only
part that can throw): `null` when the endpoint has no request body; the
preferred content type wins, else the first entry of the content map; `null`
again when the content map is empty. -/
def reqSelect (requestBody? : Option RequestBody) (preferredContentType : String) :
    Option RequestSchemaResult :=
  match requestBody? with
  | none => none
  | some requestBody =>
    match jsGet requestBody.content preferredContentType with
    | some mediaType =>
      some
        { schema := mediaType.schema, contentType := preferredContentType,
          required := requestBody.required, description := requestBody.description }
    | none =>
      match requestBody.content with
      | [] => none
      | (firstType, firstMedia) :: _ =>
        some
          { schema := firstMedia.schema, contentType := firstType,
            required := requestBody.required, description := requestBody.description }

def getRequestSchema (state : Option ParsedSpec) (path method preferredContentType : String) :
    Except OpenAPIErr (Option RequestSchemaResult) :=
  match getEndpoint state path method with
  | .error e => .error e
  | .ok endpoint => .ok (reqSelect endpoint.requestBody? preferredContentType)

/-- The status-resolution block of `getResponseSchema` (lines 346–365):
exact `Map.get`, else the first iteration-order entry passing
`matchesStatusCode`, else the `default` entry; the result carries the
matched code. -/
def resolveResponseEntry (responses : List (String × ResponseDefinition)) (statusCode : String) :
    Option (String × ResponseDefinition) :=
  match jsGet responses statusCode with
  | some response => some (statusCode, response)
  | none =>
    match responses.find? (fun kv => matchesStatusCode statusCode kv.1) with
    | some kv => some kv
    | none =>
      match jsGet responses "default" with
      | some response => some ("default", response)
      | none => none

structure ResponseSchemaResult where
  schema : SchemaNode
  contentType : String
  description : String
  statusCode : String
  deriving Repr

/-- The body of `getResponseSchema` below its `getEndpoint` call: resolve
the status entry, `null` when nothing resolves or the entry has no content,
then the same preferred/fallback content-type selection as request
schemas. -/
def respSelect (responses : List (String × ResponseDefinition))
    (statusCode preferredContentType : String) : Option ResponseSchemaResult :=
  match resolveResponseEntry responses statusCode with
  | none => none
  | some (matchedCode, response) =>
    match response.content? with
    | none => none
    | some content =>
      match jsGet content preferredContentType with
      | some mediaType =>
        some
          { schema := mediaType.schema, contentType := preferredContentType,
            description := response.description, statusCode := matchedCode }
      | none =>
        match content with
        | [] => none
        | (firstType, firstMedia) :: _ =>
          some
            { schema := firstMedia.schema, contentType := firstType,
              description := response.description, statusCode := matchedCode }

def getResponseSchema (state : Option ParsedSpec)
    (path method statusCode preferredContentType : String) :
    Except OpenAPIErr (Option ResponseSchemaResult) :=
  match getEndpoint state path method with
  | .error e => .error e
  | .ok endpoint => .ok (respSelect endpoint.responses statusCode preferredContentType)

def getSecuritySchemes (state : Option ParsedSpec) :
    Except OpenAPIErr (List SecurityScheme) :=
  match getSpec state with
  | .error e => .error e
  | .ok spec => .ok spec.securitySchemes

def getServers (state : Option ParsedSpec) : Except OpenAPIErr (List ServerInfo) :=
  match getSpec state with
  | .error e => .error e
  | .ok spec => .ok spec.servers

def getGlobalSecurity (state : Option ParsedSpec) :
    Except OpenAPIErr (List SecurityRequirement) :=
  match getSpec state with
  | .error e => .error e
  | .ok spec => .ok (spec.raw.security?.getD [])

/-! ## Spec-side definitions used to state the claims -/

/-- The field list of an object value (empty for any non-object). -/
def jsonObjFields : Json → List (String × Json)
  | .obj fields => fields
  | _ => []

/-- The status resolution order as the specification words it: the exact key
if present, else the first response key in iteration order that is a wildcard
pattern (contains an `X`) matching the status code, else the `default` key. -/
def resolveResponseEntrySpec (responses : List (String × ResponseDefinition))
    (statusCode : String) : Option (String × ResponseDefinition) :=
  match jsGet responses statusCode with
  | some response => some (statusCode, response)
  | none =>
    match responses.find? (fun kv => containsChar kv.1 'X' && wildcardMatches statusCode kv.1) with
    | some kv => some kv
    | none => (jsGet responses "default").map (fun response => ("default", response))

/-- The merged parameters of an operation, in concatenation order, with the
OpenAPI 2.0 `body` parameters removed. -/
def endpointNonBodyParams (operation : InputOperation)
    (pathParams : List InputParameter) : List InputParameter :=
  (pathParams ++ operation.parameters?.getD []).filter (fun p => p.inLoc != "body")

/-- Dedup of a parameter list by `paramKey`: later entries replace the value
of an earlier entry with the same key in place. -/
def dedupedParams (params : List InputParameter) : List InputParameter :=
  mapValues (params.foldl (fun m p => mapSet m (paramKey p) p) [])

/-- The parameter list claim C6 describes: the plain concatenation of
path-level then operation-level parameters, deduplicated — with no body
filtering. -/
def claimedParameters (pathParams : List InputParameter)
    (operation : InputOperation) : List Parameter :=
  (dedupedParams (pathParams ++ operation.parameters?.getD [])).map extractParameter

/-- The last parameter of the list whose dedup key is `k`. -/
def lastParamWith (params : List InputParameter) (k : String) : Option InputParameter :=
  params.foldl (fun acc p => if paramKey p = k then some p else acc) none

/-- Nesting of `n` levels of `{"self": ...}` ending in the null placeholder — the value
sampling the self-referential schema produces. -/
def selfNest : Nat → Json
  | 0 => Json.null
  | n + 1 => Json.obj [("self", selfNest n)]

/-! ## Concrete instances used by witnesses and counterexamples -/

def strNode : SchemaNode := { type? := some (.single "string") }

def numNode : SchemaNode := { type? := some (.single "number") }

def objANode : SchemaNode :=
  { type? := some (.single "object"), properties? := some [("a", 0)] }

def objBNode : SchemaNode :=
  { type? := some (.single "object"), properties? := some [("b", 1)] }

/-- A self-referential object schema: its own `self` property resolves (via
`sampleEnv`) back to this very node — a cycle that survived dereferencing. -/
def cyclicNode : SchemaNode :=
  { type? := some (.single "object"), properties? := some [("self", 4)],
    required? := some ["self"] }

def arrayMin0Node : SchemaNode :=
  { type? := some (.single "array"), items? := some 0, minItems? := some 0 }

def arrayMin3Node : SchemaNode :=
  { type? := some (.single "array"), items? := some 0, minItems? := some 3 }

def allOfNode : SchemaNode := { allOf? := some [2, 3] }

def oneOfNode : SchemaNode := { oneOf? := some [0, 1] }

def objReqNode : SchemaNode :=
  { type? := some (.single "object"), required? := some ["a"],
    properties? := some [("a", 0), ("b", 0)] }

def nullableAllOfNode : SchemaNode := { nullable := true, allOf? := some [2] }

def sampleEnv : SchemaEnv := fun n =>
  match n with
  | 0 => strNode
  | 1 => numNode
  | 2 => objANode
  | 3 => objBNode
  | 4 => cyclicNode
  | 5 => arrayMin0Node
  | 6 => arrayMin3Node
  | 7 => allOfNode
  | 8 => oneOfNode
  | 9 => objReqNode
  | 10 => nullableAllOfNode
  | _ => {}

def schemaA : SchemaNode := { title? := some "A" }

def schemaB : SchemaNode := { title? := some "B" }

def schemaC : SchemaNode := { title? := some "C" }

def respA : ResponseDefinition :=
  { statusCode := "200", description := "A",
    content? := some [("application/json", { schema := schemaA })] }

def respB : ResponseDefinition :=
  { statusCode := "2XX", description := "B",
    content? := some [("application/json", { schema := schemaB })] }

def respC : ResponseDefinition :=
  { statusCode := "default", description := "C",
    content? := some [("application/json", { schema := schemaC })] }

/-- The results the C1 example is expected to produce. -/
def resultA : ResponseSchemaResult :=
  { schema := schemaA, contentType := "application/json", description := "A", statusCode := "200" }

def resultB : ResponseSchemaResult :=
  { schema := schemaB, contentType := "application/json", description := "B", statusCode := "2XX" }

def resultC : ResponseSchemaResult :=
  { schema := schemaC, contentType := "application/json", description := "C", statusCode := "default" }

def epThings : Endpoint :=
  { path := "/things", method := "get",
    responses := [("200", respA), ("2XX", respB), ("default", respC)] }

def epOnly200 : Endpoint :=
  { path := "/only", method := "get", responses := [("200", respA)] }

def epUsers : Endpoint := { path := "/users", method := "get" }

/-- An endpoint whose request body is present but declares no media types. -/
def epOrders : Endpoint :=
  { path := "/orders", method := "post",
    requestBody? := some { required := true, description := "no media types", content := [] } }

def epNoBody : Endpoint := { path := "/ping", method := "get" }

def docEmpty : OpenAPIDocument := { info := { title := "t", version := "1" } }

def specW : ParsedSpec :=
  { raw := docEmpty, version := "3.0.0", info := { title := "t", version := "1" },
    servers := [],
    endpoints := [("get /things", epThings), ("get /only", epOnly200),
      ("get /users", epUsers), ("post /orders", epOrders), ("get /ping", epNoBody)],
    schemas := [], securitySchemes := [], loadedAt := 0, source := "test" }

def bodyParamC : InputParameter := { name := "payload", inLoc := "body" }

def queryParamC : InputParameter := { name := "limit", inLoc := "query" }

def emptyOp : InputOperation := {}

def opPets : InputOperation :=
  { parameters? := some [bodyParamC, queryParamC],
    responses? := some [("200", { description? := some "ok" })] }

def docPets : OpenAPIDocument :=
  { swagger? := some "2.0", info := { title := "pets", version := "1" },
    paths? := some [("/pets", { post? := some opPets })] }

def epPets : Endpoint := extractEndpoint "/pets" "post" opPets [] true

/-- Path-level and operation-level parameters sharing the `(query, limit)`
key, distinguished by description. -/
def pathLimitParam : InputParameter :=
  { name := "limit", inLoc := "query", description? := some "path-level" }

def opLimitParam : InputParameter :=
  { name := "limit", inLoc := "query", description? := some "op-level" }

def opOverride : InputOperation := { parameters? := some [opLimitParam] }

/-! ## Shared lemmas about the association-list operations -/

theorem mapSet_cons_pos {α : Type} (k : String) (w v : α) (rest : List (String × α)) :
    mapSet ((k, w) :: rest) k v = (k, v) :: rest := by
  simp [mapSet]

theorem mapSet_cons_neg {α : Type} (k key : String) (w v : α) (rest : List (String × α))
    (h : ¬ k = key) : mapSet ((k, w) :: rest) key v = (k, w) :: mapSet rest key v := by
  simp [mapSet, h]

theorem mapSet_mem {α : Type} (m : List (String × α)) (key : String) (v : α)
    (kv : String × α) (h : kv ∈ mapSet m key v) : kv ∈ m ∨ kv = (key, v) := by
  induction m with
  | nil => simpa [mapSet] using h
  | cons head rest ih =>
    obtain ⟨k, w⟩ := head
    by_cases hk : k = key
    · subst hk
      rw [mapSet_cons_pos] at h
      rcases List.mem_cons.mp h with h | h
      · exact Or.inr h
      · exact Or.inl (List.mem_cons_of_mem _ h)
    · rw [mapSet_cons_neg _ _ _ _ _ hk] at h
      rcases List.mem_cons.mp h with h | h
      · exact Or.inl (h ▸ List.mem_cons_self _ _)
      · rcases ih h with h' | h'
        · exact Or.inl (List.mem_cons_of_mem _ h')
        · exact Or.inr h'

theorem mapSet_keys_mem {α : Type} (m : List (String × α)) (key k : String) (v : α) :
    k ∈ (mapSet m key v).map Prod.fst ↔ k ∈ m.map Prod.fst ∨ k = key := by
  induction m with
  | nil => simp [mapSet]
  | cons head rest ih =>
    obtain ⟨k', w⟩ := head
    by_cases hk : k' = key
    · subst hk
      rw [mapSet_cons_pos]
      simp only [List.map_cons, List.mem_cons]
      tauto
    · rw [mapSet_cons_neg _ _ _ _ _ hk]
      simp only [List.map_cons, List.mem_cons, ih]
      tauto

theorem mapSet_keys_nodup {α : Type} (m : List (String × α)) (key : String) (v : α)
    (h : (m.map Prod.fst).Nodup) : ((mapSet m key v).map Prod.fst).Nodup := by
  induction m with
  | nil => simp [mapSet]
  | cons head rest ih =>
    obtain ⟨k', w⟩ := head
    simp only [List.map_cons, List.nodup_cons] at h
    by_cases hk : k' = key
    · subst hk
      rw [mapSet_cons_pos]
      simp only [List.map_cons, List.nodup_cons]
      exact ⟨h.1, h.2⟩
    · rw [mapSet_cons_neg _ _ _ _ _ hk]
      simp only [List.map_cons, List.nodup_cons]
      refine ⟨fun hmem => ?_, ih h.2⟩
      rcases (mapSet_keys_mem rest key k' v).mp hmem with h' | h'
      · exact h.1 h'
      · exact hk h'

theorem mapSet_jsGet {α : Type} (m : List (String × α)) (key k : String) (v : α) :
    jsGet (mapSet m key v) k = if key = k then some v else jsGet m k := by
  induction m with
  | nil => simp [mapSet, jsGet]
  | cons head rest ih =>
    obtain ⟨k', w⟩ := head
    by_cases hk : k' = key
    · subst hk
      rw [mapSet_cons_pos]
      by_cases hkk : k' = k <;> simp [jsGet, hkk]
    · rw [mapSet_cons_neg _ _ _ _ _ hk]
      by_cases hkk : k' = k
      · subst hkk
        have hne : ¬ key = k' := fun he => hk he.symm
        simp [jsGet, hne]
      · simp [jsGet, hkk, ih]

/-- Folding `mapSet` keyed by `keyOf` and valued by `valOf`: a lookup returns
the value of the **last** element with the sought key, falling back to the
initial map — the "later writes win" law behind parameter dedup and
`Object.assign`. -/
theorem foldl_mapSet_jsGet {α β : Type} (keyOf : β → String) (valOf : β → α)
    (l : List β) (m : List (String × α)) (k : String) :
    jsGet (l.foldl (fun acc b => mapSet acc (keyOf b) (valOf b)) m) k
      = l.foldl (fun acc b => if keyOf b = k then some (valOf b) else acc) (jsGet m k) := by
  induction l generalizing m with
  | nil => simp
  | cons b rest ih =>
    simp only [List.foldl_cons, ih, mapSet_jsGet]

theorem foldl_mapSet_mem {α β : Type} (keyOf : β → String) (valOf : β → α)
    (l : List β) (m : List (String × α)) (kv : String × α)
    (h : kv ∈ l.foldl (fun acc b => mapSet acc (keyOf b) (valOf b)) m) :
    kv ∈ m ∨ ∃ b ∈ l, kv = (keyOf b, valOf b) := by
  induction l generalizing m with
  | nil => exact Or.inl (by simpa using h)
  | cons b rest ih =>
    simp only [List.foldl_cons] at h
    rcases ih _ h with h' | h'
    · rcases mapSet_mem _ _ _ _ h' with h'' | h''
      · exact Or.inl h''
      · exact Or.inr ⟨b, List.mem_cons_self _ _, h''⟩
    · obtain ⟨b', hb', hkv⟩ := h'
      exact Or.inr ⟨b', List.mem_cons_of_mem _ hb', hkv⟩

theorem foldl_mapSet_keys_nodup {α β : Type} (keyOf : β → String) (valOf : β → α)
    (l : List β) (m : List (String × α)) (h : (m.map Prod.fst).Nodup) :
    ((l.foldl (fun acc b => mapSet acc (keyOf b) (valOf b)) m).map Prod.fst).Nodup := by
  induction l generalizing m with
  | nil => simpa using h
  | cons b rest ih =>
    simp only [List.foldl_cons]
    exact ih _ (mapSet_keys_nodup _ _ _ h)

/-- Every pair stored by the `mapSet` fold carries the key computed from its
value (when the key function factors through the stored value). -/
theorem foldl_mapSet_key_inv {α β : Type} (keyOf : β → String) (valOf : β → α)
    (g : α → String) (hg : ∀ b, g (valOf b) = keyOf b)
    (l : List β) (m : List (String × α)) (hm : ∀ kv ∈ m, kv.1 = g kv.2)
    (kv : String × α) (h : kv ∈ l.foldl (fun acc b => mapSet acc (keyOf b) (valOf b)) m) :
    kv.1 = g kv.2 := by
  induction l generalizing m with
  | nil => exact hm _ (by simpa using h)
  | cons b rest ih =>
    refine ih _ ?_ (by simpa using h)
    intro kv' hkv'
    rcases mapSet_mem _ _ _ _ hkv' with h' | h'
    · exact hm _ h'
    · rw [h']
      exact (hg b).symm

theorem keys_eq_map_of_inv {α : Type} (g : α → String) (m : List (String × α))
    (hm : ∀ kv ∈ m, kv.1 = g kv.2) : m.map Prod.fst = (m.map Prod.snd).map g := by
  induction m with
  | nil => rfl
  | cons kv rest ih =>
    simp only [List.map_cons]
    rw [hm kv (List.mem_cons_self _ _)]
    rw [ih (fun kv' h => hm kv' (List.mem_cons_of_mem _ h))]

theorem mem_keys_iff {α : Type} (m : List (String × α)) (k : String) :
    k ∈ m.map Prod.fst ↔ ∃ v, (k, v) ∈ m := by
  constructor
  · intro h
    obtain ⟨⟨k', v⟩, hm, he⟩ := List.mem_map.mp h
    have hk : k' = k := he
    subst hk
    exact ⟨v, hm⟩
  · rintro ⟨v, hv⟩
    exact List.mem_map.mpr ⟨(k, v), hv, rfl⟩

/-! ## Structural lemmas about the sample generator -/

/-- Once the depth exceeds the configured maximum, the generator returns the
null placeholder without recursing. -/
theorem generateSample_null_of_lt (env : SchemaEnv) (options : GenerateOptions)
    (schema : SchemaNode) (depth : Nat)
    (h : (resolveOptions options).maxDepth < depth) :
    generateSample env schema options depth = Json.null := by
  show genAux env (resolveOptions options)
      ((resolveOptions options).maxDepth + 1 - depth) schema = Json.null
  have h0 : (resolveOptions options).maxDepth + 1 - depth = 0 := by omega
  rw [h0]
  rfl

/-- Below the depth cap, one generator step is `genStep` with recursive calls
at `depth + 1`. -/
theorem generateSample_child (env : SchemaEnv) (options : GenerateOptions)
    (schema : SchemaNode) (depth : Nat)
    (h : depth ≤ (resolveOptions options).maxDepth) :
    generateSample env schema options depth
      = genStep (fun idx => generateSample env (env idx) options (depth + 1))
          (resolveOptions options) schema := by
  show genAux env (resolveOptions options)
      ((resolveOptions options).maxDepth + 1 - depth) schema = _
  have h0 : (resolveOptions options).maxDepth + 1 - depth
      = ((resolveOptions options).maxDepth + 1 - (depth + 1)) + 1 := by omega
  rw [h0]
  rfl

theorem typeFalsy_of_typeHead (t : Option TypeField) (s : String)
    (h : typeHead t = some s) (hs : s ≠ "") : typeFalsy t = false := by
  cases t with
  | none => simp [typeHead] at h
  | some tf =>
    cases tf with
    | single s' =>
      simp only [typeHead, Option.some.injEq] at h
      subst h
      simpa [typeFalsy] using hs
    | list l => rfl

/-! ## Claim theorems -/

/-- C3: for every schema graph — self-referential/cyclic ones included — and
every options value the (total) `generateSample` terminates; any call whose
depth exceeds the configured `maxDepth` (default 10) returns the null
placeholder instead of recursing further, and sampling the concrete
self-referential schema from depth 0 terminates with the placeholder at the
default maximum depth of 10 (eleven object layers, then null). -/
theorem generateSample_depth_guard :
    (∀ (env : SchemaEnv) (options : GenerateOptions) (schema : SchemaNode) (depth : Nat),
        (resolveOptions options).maxDepth < depth →
        generateSample env schema options depth = Json.null)
    ∧ generateSample sampleEnv cyclicNode {} 0 = selfNest 11 :=
  ⟨fun env options schema depth h => generateSample_null_of_lt env options schema depth h, rfl⟩

theorem generateSample_depth_guard_witness :
    generateSample sampleEnv cyclicNode {} 11 = Json.null :=
  generateSample_depth_guard.1 sampleEnv {} cyclicNode 11 (by decide)

/-- C2 counterexample: an array schema with an `items` subschema and
`minItems: 0` yields the **empty** array under default options — not the
one-element array that `max(1, minItems) = 1` would predict; the code uses
`minItems ?? Math.min(1, maxArrayItems)` with no lower bound. -/
theorem generateSample_minItems_zero_counterexample :
    generateSample sampleEnv arrayMin0Node {} 0 = Json.arr []
    ∧ generateSample sampleEnv arrayMin0Node {} 0 ≠ Json.arr [Json.str "string"] := by
  refine ⟨rfl, ?_⟩
  have h : generateSample sampleEnv arrayMin0Node {} 0 = Json.arr [] := rfl
  rw [h]
  simp

/-- C2 amended: for a schema dispatched as an array (no
example/default/const/enum and no composition keyword), the generator
returns the empty list when `items` is absent; otherwise it repeats the one
sample of `items` exactly `minItems` times when `minItems` is given (zero
gives an empty array), and `min(1, maxArrayItems)` times — 1 under default
options — when it is absent. -/
theorem generateSample_array_spec (env : SchemaEnv) (options : GenerateOptions)
    (schema : SchemaNode) (depth : Nat)
    (hex : schema.example? = none) (hdef : schema.default? = none)
    (hconst : schema.const? = none) (henum : schema.enum? = none)
    (hallOf : schema.allOf? = none) (honeOf : schema.oneOf? = none)
    (hanyOf : schema.anyOf? = none)
    (hty : typeHead schema.type? = some "array")
    (hdepth : depth ≤ (resolveOptions options).maxDepth) :
    (schema.items? = none → generateSample env schema options depth = Json.arr [])
    ∧ (∀ itemsIdx, schema.items? = some itemsIdx →
        generateSample env schema options depth
          = Json.arr (List.replicate
              (schema.minItems?.getD (min 1 (resolveOptions options).maxArrayItems))
              (generateSample env (env itemsIdx) options (depth + 1)))) := by
  have hfalsy : typeFalsy schema.type? = false :=
    typeFalsy_of_typeHead _ _ hty (by decide)
  constructor
  · intro hitems
    rw [generateSample_child env options schema depth hdepth]
    unfold genStep
    rw [hex, hdef, hconst, henum, hallOf, honeOf, hanyOf, hfalsy, Bool.and_false, hty, hitems]
    rfl
  · intro itemsIdx hitems
    rw [generateSample_child env options schema depth hdepth]
    unfold genStep
    rw [hex, hdef, hconst, henum, hallOf, honeOf, hanyOf, hfalsy, Bool.and_false, hty, hitems]
    rfl

theorem generateSample_array_spec_witness :
    generateSample sampleEnv arrayMin3Node {} 0
      = Json.arr [Json.str "string", Json.str "string", Json.str "string"] := by
  have h := (generateSample_array_spec sampleEnv {} arrayMin3Node 0
    rfl rfl rfl rfl rfl rfl rfl rfl (by decide)).2 0 rfl
  rw [h]
  rfl

/-- C4 counterexample: the `nullable && !type` check precedes composition, so
a schema `{nullable: true, allOf: [...]}` with no `type` returns the null
placeholder — not the shallow-merged object the claim predicts for every
schema with a non-empty `allOf`. -/
theorem generateSample_nullable_composition_counterexample :
    generateSample sampleEnv nullableAllOfNode {} 0 = Json.null
    ∧ generateSample sampleEnv nullableAllOfNode {} 0 ≠ Json.obj [] := by
  refine ⟨rfl, ?_⟩
  have h : generateSample sampleEnv nullableAllOfNode {} 0 = Json.null := rfl
  rw [h]
  simp

/-- C4 amended: unless the higher-precedence `nullable`-with-falsy-`type`
check fires (and with no example/default/const/enum), a non-empty `allOf`
shallow-merges each branch's sample into one object in list order — a lookup
in an `Object.assign` result returns the **last** written value, so later
branches overwrite earlier keys — while non-empty `oneOf`/`anyOf` return the
sample of the first listed branch only; on the claim's concrete inputs the
`allOf` merge contains both `a` and `b`, and the `oneOf` sample is a
string. -/
theorem generateSample_composition :
    (∀ (target source : List (String × Json)) (k : String),
        jsGet (objAssign target source) k
          = source.foldl (fun acc kv => if kv.1 = k then some kv.2 else acc) (jsGet target k))
    ∧ (∀ (env : SchemaEnv) (options : GenerateOptions) (schema : SchemaNode) (depth : Nat)
          (branches : List Nat),
        schema.example? = none → schema.default? = none → schema.const? = none →
        schema.enum? = none →
        (schema.nullable = false ∨ typeFalsy schema.type? = false) →
        schema.allOf? = some branches → branches ≠ [] →
        depth ≤ (resolveOptions options).maxDepth →
        generateSample env schema options depth
          = Json.obj (branches.foldl
              (fun merged idx =>
                assignSample merged (generateSample env (env idx) options (depth + 1)))
              []))
    ∧ (∀ (env : SchemaEnv) (options : GenerateOptions) (schema : SchemaNode) (depth : Nat)
          (b : Nat) (rest : List Nat),
        schema.example? = none → schema.default? = none → schema.const? = none →
        schema.enum? = none →
        (schema.nullable = false ∨ typeFalsy schema.type? = false) →
        schema.allOf? = none → schema.oneOf? = some (b :: rest) →
        generateSample env schema options depth
          = generateSample env (env b) options (depth + 1))
    ∧ (∀ (env : SchemaEnv) (options : GenerateOptions) (schema : SchemaNode) (depth : Nat)
          (b : Nat) (rest : List Nat),
        schema.example? = none → schema.default? = none → schema.const? = none →
        schema.enum? = none →
        (schema.nullable = false ∨ typeFalsy schema.type? = false) →
        schema.allOf? = none → schema.oneOf? = none → schema.anyOf? = some (b :: rest) →
        generateSample env schema options depth
          = generateSample env (env b) options (depth + 1))
    ∧ generateSample sampleEnv allOfNode { includeOptional := some true } 0
        = Json.obj [("a", Json.str "string"), ("b", Json.num 50)]
    ∧ generateSample sampleEnv oneOfNode {} 0 = Json.str "string" := by
  refine ⟨?_, ?_, ?_, ?_, rfl, rfl⟩
  · intro target source k
    exact foldl_mapSet_jsGet Prod.fst Prod.snd source target k
  · intro env options schema depth branches hex hdef hconst henum hnull hallOf hne hdepth
    rcases branches with _ | ⟨b, rest⟩
    · exact absurd rfl hne
    rw [generateSample_child env options schema depth hdepth]
    unfold genStep
    rcases hnull with hnull | hnull
    · rw [hex, hdef, hconst, henum, hnull, Bool.false_and, hallOf]
      rfl
    · rw [hex, hdef, hconst, henum, hnull, Bool.and_false, hallOf]
      rfl
  · intro env options schema depth b rest hex hdef hconst henum hnull hallOf honeOf
    by_cases hdepth : depth ≤ (resolveOptions options).maxDepth
    · rw [generateSample_child env options schema depth hdepth]
      unfold genStep
      rcases hnull with hnull | hnull
      · rw [hex, hdef, hconst, henum, hnull, Bool.false_and, hallOf, honeOf]
        rfl
      · rw [hex, hdef, hconst, henum, hnull, Bool.and_false, hallOf, honeOf]
        rfl
    · have h1 : (resolveOptions options).maxDepth < depth := Nat.lt_of_not_le hdepth
      rw [generateSample_null_of_lt env options schema depth h1,
        generateSample_null_of_lt env options (env b) (depth + 1) (Nat.lt_succ_of_lt h1)]
  · intro env options schema depth b rest hex hdef hconst henum hnull hallOf honeOf hanyOf
    by_cases hdepth : depth ≤ (resolveOptions options).maxDepth
    · rw [generateSample_child env options schema depth hdepth]
      unfold genStep
      rcases hnull with hnull | hnull
      · rw [hex, hdef, hconst, henum, hnull, Bool.false_and, hallOf, honeOf, hanyOf]
        rfl
      · rw [hex, hdef, hconst, henum, hnull, Bool.and_false, hallOf, honeOf, hanyOf]
        rfl
    · have h1 : (resolveOptions options).maxDepth < depth := Nat.lt_of_not_le hdepth
      rw [generateSample_null_of_lt env options schema depth h1,
        generateSample_null_of_lt env options (env b) (depth + 1) (Nat.lt_succ_of_lt h1)]

theorem generateSample_composition_witness :
    generateSample sampleEnv oneOfNode {} 3 = generateSample sampleEnv (sampleEnv 0) {} 4 :=
  generateSample_composition.2.2.1 sampleEnv {} oneOfNode 3 0 [1]
    rfl rfl rfl rfl (Or.inl rfl) rfl rfl

/-- A key appears in the property loop's result exactly when it was already
in the accumulator or it names a declared property passing the
required/includeOptional test. -/
theorem genPropsGo_keys_mem (includeOpt : Bool) (required : List String) (child : Nat → Json)
    (acc : List (String × Json)) (props : List (String × Nat)) (k : String) :
    k ∈ (genPropsGo includeOpt required child acc props).map Prod.fst
      ↔ k ∈ acc.map Prod.fst
        ∨ ∃ idx, (k, idx) ∈ props ∧ (required.contains k || includeOpt) = true := by
  induction props generalizing acc with
  | nil => simp [genPropsGo]
  | cons head rest ih =>
    obtain ⟨key, idx⟩ := head
    have estep : genPropsGo includeOpt required child acc ((key, idx) :: rest)
        = if (required.contains key || includeOpt) = true
          then genPropsGo includeOpt required child (mapSet acc key (child idx)) rest
          else genPropsGo includeOpt required child acc rest := rfl
    by_cases hc : (required.contains key || includeOpt) = true
    · rw [estep, if_pos hc, ih]
      constructor
      · rintro (hmem | ⟨idx', hidx', hcond⟩)
        · rcases (mapSet_keys_mem acc key k (child idx)).mp hmem with h' | h'
          · exact Or.inl h'
          · subst h'
            exact Or.inr ⟨idx, List.mem_cons_self _ _, hc⟩
        · exact Or.inr ⟨idx', List.mem_cons_of_mem _ hidx', hcond⟩
      · rintro (hmem | ⟨idx', hidx', hcond⟩)
        · exact Or.inl ((mapSet_keys_mem acc key k (child idx)).mpr (Or.inl hmem))
        · rcases List.mem_cons.mp hidx' with h' | h'
          · have hk : k = key := congrArg Prod.fst h'
            exact Or.inl ((mapSet_keys_mem acc key k (child idx)).mpr (Or.inr hk))
          · exact Or.inr ⟨idx', h', hcond⟩
    · rw [estep, if_neg hc, ih]
      constructor
      · rintro (hmem | ⟨idx', hidx', hcond⟩)
        · exact Or.inl hmem
        · exact Or.inr ⟨idx', List.mem_cons_of_mem _ hidx', hcond⟩
      · rintro (hmem | ⟨idx', hidx', hcond⟩)
        · exact Or.inl hmem
        · rcases List.mem_cons.mp hidx' with h' | h'
          · have hk : k = key := congrArg Prod.fst h'
            subst hk
            exact absurd hcond hc
          · exact Or.inr ⟨idx', h', hcond⟩

/-- C5: for a schema dispatched as an object with declared properties, the
sampled object contains a key exactly when it names a declared property that
is required or `includeOptional` is set; on the claim's concrete schema the
sample is exactly `{a: "string"}` without optional fields and exactly
`{a: "string", b: "string"}` with them. -/
theorem generateSample_object_required :
    (∀ (env : SchemaEnv) (options : GenerateOptions) (schema : SchemaNode) (depth : Nat)
        (props : List (String × Nat)) (k : String),
        schema.example? = none → schema.default? = none → schema.const? = none →
        schema.enum? = none → schema.allOf? = none → schema.oneOf? = none →
        schema.anyOf? = none →
        typeHead schema.type? = some "object" →
        schema.properties? = some props →
        depth ≤ (resolveOptions options).maxDepth →
        ((∃ v, (k, v) ∈ jsonObjFields (generateSample env schema options depth))
          ↔ (∃ idx, (k, idx) ∈ props)
            ∧ (k ∈ schema.required?.getD [] ∨ (resolveOptions options).includeOptional = true)))
    ∧ generateSample sampleEnv objReqNode {} 0 = Json.obj [("a", Json.str "string")]
    ∧ generateSample sampleEnv objReqNode { includeOptional := some true } 0
        = Json.obj [("a", Json.str "string"), ("b", Json.str "string")] := by
  refine ⟨?_, rfl, rfl⟩
  intro env options schema depth props k hex hdef hconst henum hallOf honeOf hanyOf hty hprops hdepth
  have hfalsy : typeFalsy schema.type? = false :=
    typeFalsy_of_typeHead _ _ hty (by decide)
  have e : generateSample env schema options depth
      = Json.obj (genPropsGo (resolveOptions options).includeOptional (schema.required?.getD [])
          (fun idx => generateSample env (env idx) options (depth + 1)) [] props) := by
    rw [generateSample_child env options schema depth hdepth]
    unfold genStep
    rw [hex, hdef, hconst, henum, hfalsy, Bool.and_false, hallOf, honeOf, hanyOf, hty, hprops]
    rfl
  rw [e]
  have hfields : jsonObjFields (Json.obj (genPropsGo (resolveOptions options).includeOptional
      (schema.required?.getD []) (fun idx => generateSample env (env idx) options (depth + 1))
      [] props)) = genPropsGo (resolveOptions options).includeOptional (schema.required?.getD [])
      (fun idx => generateSample env (env idx) options (depth + 1)) [] props := rfl
  rw [hfields, ← mem_keys_iff, genPropsGo_keys_mem]
  have hsplit : ((schema.required?.getD []).contains k
        || (resolveOptions options).includeOptional) = true
      ↔ k ∈ schema.required?.getD [] ∨ (resolveOptions options).includeOptional = true := by
    simp
  constructor
  · rintro (hmem | ⟨idx, hidx, hcond⟩)
    · simp at hmem
    · exact ⟨⟨idx, hidx⟩, hsplit.mp hcond⟩
  · rintro ⟨⟨idx, hidx⟩, hcond⟩
    exact Or.inr ⟨idx, hidx, hsplit.mpr hcond⟩

theorem generateSample_object_required_witness :
    ∃ v, ("a", v) ∈ jsonObjFields (generateSample sampleEnv objReqNode {} 0) :=
  (generateSample_object_required.1 sampleEnv {} objReqNode 0 [("a", 0), ("b", 0)] "a"
    rfl rfl rfl rfl rfl rfl rfl rfl rfl (by decide)).mpr
    ⟨⟨0, List.mem_cons_self _ _⟩, Or.inl (by simp [objReqNode])⟩

/-- When the exact lookup missed, no key equals the status code, so the
loop's `matchesStatusCode` test agrees with the pure wildcard test. -/
theorem find?_matches_of_jsGet_none (responses : List (String × ResponseDefinition))
    (sc : String) (h : jsGet responses sc = none) :
    responses.find? (fun kv => matchesStatusCode sc kv.1)
      = responses.find? (fun kv => containsChar kv.1 'X' && wildcardMatches sc kv.1) := by
  induction responses with
  | nil => rfl
  | cons head rest ih =>
    obtain ⟨key, resp⟩ := head
    have hget : jsGet ((key, resp) :: rest) sc
        = if key = sc then some resp else jsGet rest sc := rfl
    have hkey : ¬ key = sc := by
      intro he
      rw [hget, if_pos he] at h
      exact Option.noConfusion h
    have hrest : jsGet rest sc = none := by
      rw [hget, if_neg hkey] at h
      exact h
    have hpred : matchesStatusCode sc key = (containsChar key 'X' && wildcardMatches sc key) := by
      unfold matchesStatusCode
      have hne : ¬ ((sc == key) = true) := by
        simp only [beq_iff_eq]
        exact fun he => hkey he.symm
      rw [if_neg hne]
      cases hX : containsChar key 'X'
      · rfl
      · rfl
    cases hm : containsChar key 'X' && wildcardMatches sc key
    · rw [List.find?_cons_of_neg, List.find?_cons_of_neg, ih hrest]
      · simp [hm]
      · simp [hpred, hm]
    · rw [List.find?_cons_of_pos, List.find?_cons_of_pos]
      · simp [hm]
      · simp [hpred, hm]

/-- C1: `getResponseSchema` resolves the status code exactly as specified —
the exact key, else the first wildcard-pattern key matching it in iteration
order, else `default` — and returns null when nothing resolves or the
resolved entry has no content; the `{"200": A, "2XX": B, "default": C}`
example yields A for `"200"`, B for `"201"`, C for `"404"`. -/
theorem getResponseSchema_resolution :
    (∀ (responses : List (String × ResponseDefinition)) (statusCode : String),
        resolveResponseEntry responses statusCode
          = resolveResponseEntrySpec responses statusCode)
    ∧ (∀ (state : Option ParsedSpec) (path method statusCode pref : String)
          (endpoint : Endpoint),
        getEndpoint state path method = .ok endpoint →
        resolveResponseEntry endpoint.responses statusCode = none →
        getResponseSchema state path method statusCode pref = .ok none)
    ∧ (∀ (state : Option ParsedSpec) (path method statusCode pref : String)
          (endpoint : Endpoint) (matchedCode : String) (response : ResponseDefinition),
        getEndpoint state path method = .ok endpoint →
        resolveResponseEntry endpoint.responses statusCode = some (matchedCode, response) →
        response.content? = none →
        getResponseSchema state path method statusCode pref = .ok none)
    ∧ getResponseSchema (some specW) "/things" "get" "200" "application/json"
        = .ok (some resultA)
    ∧ getResponseSchema (some specW) "/things" "get" "201" "application/json"
        = .ok (some resultB)
    ∧ getResponseSchema (some specW) "/things" "get" "404" "application/json"
        = .ok (some resultC) := by
  refine ⟨?_, ?_, ?_, rfl, rfl, rfl⟩
  · intro responses sc
    unfold resolveResponseEntry resolveResponseEntrySpec
    cases h : jsGet responses sc with
    | some r => rfl
    | none =>
      rw [find?_matches_of_jsGet_none responses sc h]
      cases responses.find? (fun kv => containsChar kv.1 'X' && wildcardMatches sc kv.1) with
      | some kv => rfl
      | none =>
        cases jsGet responses "default" <;> rfl
  · intro state path method sc pref endpoint hEp hres
    unfold getResponseSchema
    rw [hEp]
    show Except.ok (respSelect endpoint.responses sc pref) = Except.ok none
    unfold respSelect
    simp only [hres]
  · intro state path method sc pref endpoint matchedCode response hEp hres hcontent
    unfold getResponseSchema
    rw [hEp]
    show Except.ok (respSelect endpoint.responses sc pref) = Except.ok none
    unfold respSelect
    simp only [hres, hcontent]

theorem getResponseSchema_resolution_witness :
    getResponseSchema (some specW) "/only" "get" "404" "application/json" = .ok none :=
  getResponseSchema_resolution.2.1 (some specW) "/only" "get" "404" "application/json"
    epOnly200 rfl rfl

/-- C7: the endpoint index key is built from the lowercased method and the
leading-slash-normalized path, so `getEndpoint` resolves identically whenever
the normalized methods and paths agree — in particular for
`getEndpoint("users", "GET")` and `getEndpoint("/users", "get")`. -/
theorem getEndpoint_key_normalization :
    (∀ (method path : String),
        createEndpointKey method path = normalizeMethod method ++ " " ++ normalizePath path)
    ∧ (∀ (state : Option ParsedSpec) (p1 m1 p2 m2 : String),
        normalizeMethod m1 = normalizeMethod m2 → normalizePath p1 = normalizePath p2 →
        getEndpoint state p1 m1 = getEndpoint state p2 m2) := by
  refine ⟨fun method path => rfl, ?_⟩
  intro state p1 m1 p2 m2 hm hp
  have hkey : createEndpointKey m1 p1 = createEndpointKey m2 p2 := by
    unfold createEndpointKey
    rw [hm, hp]
  unfold getEndpoint
  rw [hkey, hm, hp]

theorem getEndpoint_key_normalization_witness :
    getEndpoint (some specW) "users" "GET" = getEndpoint (some specW) "/users" "get" :=
  getEndpoint_key_normalization.2 (some specW) "users" "GET" "/users" "get"
    (by decide) (by decide)

/-- C8: every accessor issued while no spec is loaded fails with
`SpecNotLoaded`; with a spec loaded but the normalized key absent from the
endpoint index, `getEndpoint` fails with `EndpointNotFound` carrying the
slash-normalized path and the lowercased method. -/
theorem accessors_error_taxonomy :
    (∀ path method, getEndpoint none path method = .error .specNotLoaded)
    ∧ (∀ path method pref, getRequestSchema none path method pref = .error .specNotLoaded)
    ∧ (∀ path method sc pref,
        getResponseSchema none path method sc pref = .error .specNotLoaded)
    ∧ getEndpoints none = .error .specNotLoaded
    ∧ getSecuritySchemes none = .error .specNotLoaded
    ∧ getServers none = .error .specNotLoaded
    ∧ (∀ (spec : ParsedSpec) (path method : String),
        jsGet spec.endpoints (createEndpointKey method path) = none →
        getEndpoint (some spec) path method
          = .error (.endpointNotFound (normalizePath path) (normalizeMethod method))) := by
  refine ⟨fun path method => rfl, fun path method pref => rfl,
    fun path method sc pref => rfl, rfl, rfl, rfl, ?_⟩
  intro spec path method h
  show (match jsGet spec.endpoints (createEndpointKey method path) with
    | none => (Except.error (OpenAPIErr.endpointNotFound (normalizePath path)
        (normalizeMethod method)) : Except OpenAPIErr Endpoint)
    | some endpoint => Except.ok endpoint)
    = Except.error (OpenAPIErr.endpointNotFound (normalizePath path) (normalizeMethod method))
  rw [h]

theorem accessors_error_taxonomy_witness :
    getEndpoint (some specW) "/nope" "GET" = .error (.endpointNotFound "/nope" "get") :=
  accessors_error_taxonomy.2.2.2.2.2.2 specW "/nope" "GET" rfl

/-- C9: with a loaded spec and a resolvable endpoint, `getRequestSchema`
returns `.ok none` both when the request body is present with an empty
content map and when there is no request body at all — a null result does
not distinguish the two. -/
theorem getRequestSchema_empty_content_null :
    (∀ (spec : ParsedSpec) (path method pref : String) (endpoint : Endpoint)
        (requestBody : RequestBody),
        jsGet spec.endpoints (createEndpointKey method path) = some endpoint →
        endpoint.requestBody? = some requestBody →
        requestBody.content = [] →
        getRequestSchema (some spec) path method pref = .ok none)
    ∧ (∀ (spec : ParsedSpec) (path method pref : String) (endpoint : Endpoint),
        jsGet spec.endpoints (createEndpointKey method path) = some endpoint →
        endpoint.requestBody? = none →
        getRequestSchema (some spec) path method pref = .ok none) := by
  constructor
  · intro spec path method pref endpoint requestBody hep hrb hcontent
    have hEp : getEndpoint (some spec) path method = .ok endpoint := by
      unfold getEndpoint getSpec
      simp only [hep]
    unfold getRequestSchema
    rw [hEp]
    show Except.ok (reqSelect endpoint.requestBody? pref) = Except.ok none
    unfold reqSelect
    simp only [hrb, hcontent, jsGet]
  · intro spec path method pref endpoint hep hrb
    have hEp : getEndpoint (some spec) path method = .ok endpoint := by
      unfold getEndpoint getSpec
      simp only [hep]
    unfold getRequestSchema
    rw [hEp]
    show Except.ok (reqSelect endpoint.requestBody? pref) = Except.ok none
    unfold reqSelect
    simp only [hrb]

theorem getRequestSchema_empty_content_null_witness :
    getRequestSchema (some specW) "/orders" "POST" "application/json" = .ok none :=
  getRequestSchema_empty_content_null.1 specW "/orders" "POST" "application/json"
    epOrders { required := true, description := "no media types", content := [] }
    rfl rfl rfl

/-- A predicate preserved by every fold step holds of the fold. -/
theorem foldl_preserves {γ δ : Type} (P : δ → Prop) (step : δ → γ → δ)
    (hstep : ∀ d g, P d → P (step d g)) (l : List γ) (init : δ) (hinit : P init) :
    P (l.foldl step init) := by
  induction l generalizing init with
  | nil => exact hinit
  | cons g rest ih => exact ih _ (hstep _ _ hinit)

/-- Every parameter of an extracted endpoint comes from the body-filtered
input list, so none is body-located. -/
theorem extractEndpoint_param_not_body (path method : String) (operation : InputOperation)
    (pathParams : List InputParameter) (isV2 : Bool) :
    ∀ p ∈ (extractEndpoint path method operation pathParams isV2).parameters,
      p.inLoc ≠ "body" := by
  intro p hp
  have hp' : p ∈ (mapValues ((endpointNonBodyParams operation pathParams).foldl
      (fun m q => mapSet m (paramKey q) q) [])).map extractParameter := hp
  obtain ⟨q, hq, he⟩ := List.mem_map.mp hp'
  obtain ⟨⟨k, q'⟩, hkq, hq'⟩ := List.mem_map.mp hq
  rcases foldl_mapSet_mem paramKey id _ [] _ hkq with h0 | ⟨b, hb, hbe⟩
  · exact absurd h0 (List.not_mem_nil _)
  · have hqb : q' = b := congrArg Prod.snd hbe
    have hb' : b ∈ (pathParams ++ operation.parameters?.getD []).filter
        (fun q => q.inLoc != "body") := hb
    have hfilter := List.of_mem_filter hb'
    have hbody : b.inLoc ≠ "body" := by simpa using hfilter
    have hploc : p.inLoc = q.inLoc := by
      rw [← he]
      rfl
    have hq'q : q' = q := hq'
    rw [hploc, ← hq'q, hqb]
    exact hbody

/-- C6 counterexample: a `body`-location parameter is filtered out of the
parameter list (it surfaces as the Swagger 2.0 request body instead), so the
extracted parameters differ from the dedup of the plain concatenation the
claim describes. -/
theorem extractEndpoint_parameters_counterexample :
    (extractEndpoint "/pets" "post" emptyOp [bodyParamC] true).parameters = []
    ∧ claimedParameters [bodyParamC] emptyOp = [extractParameter bodyParamC]
    ∧ (extractEndpoint "/pets" "post" emptyOp [bodyParamC] true).parameters
        ≠ claimedParameters [bodyParamC] emptyOp := by
  refine ⟨rfl, rfl, ?_⟩
  have h1 : (extractEndpoint "/pets" "post" emptyOp [bodyParamC] true).parameters = [] := rfl
  have h2 : claimedParameters [bodyParamC] emptyOp = [extractParameter bodyParamC] := rfl
  rw [h1, h2]
  simp

/-- C6 amended: the extracted endpoint's parameter list is the concatenation
of path-level then operation-level parameters **with body-location parameters
removed**, deduplicated by the `location:name` key in place; the surviving
value for a key is the last parameter carrying it (operation-level
parameters come last in the concatenation, so they replace path-level ones),
each `(location, name)` pair occurs at most once in the result, and on the
concrete override example the operation-level parameter wins. -/
theorem extractEndpoint_parameters_dedup (path method : String)
    (operation : InputOperation) (pathParams : List InputParameter) (isV2 : Bool) :
    (extractEndpoint path method operation pathParams isV2).parameters
        = (dedupedParams (endpointNonBodyParams operation pathParams)).map extractParameter
    ∧ (∀ k, jsGet ((endpointNonBodyParams operation pathParams).foldl
          (fun m p => mapSet m (paramKey p) p) []) k
        = lastParamWith (endpointNonBodyParams operation pathParams) k)
    ∧ ((extractEndpoint path method operation pathParams isV2).parameters.map
        (fun p => (p.inLoc, p.name))).Nodup
    ∧ lastParamWith (endpointNonBodyParams opOverride [pathLimitParam]) "query:limit"
        = some opLimitParam := by
  refine ⟨rfl, ?_, ?_, rfl⟩
  · intro k
    exact foldl_mapSet_jsGet paramKey id (endpointNonBodyParams operation pathParams) [] k
  · have hinv : ∀ kv ∈ (endpointNonBodyParams operation pathParams).foldl
        (fun m p => mapSet m (paramKey p) p) [],
        kv.1 = paramKey kv.2 := by
      intro kv h
      exact foldl_mapSet_key_inv paramKey id paramKey (fun b => rfl) _ []
        (fun kv h0 => absurd h0 (List.not_mem_nil _)) kv h
    have hkeys : (((endpointNonBodyParams operation pathParams).foldl
        (fun m p => mapSet m (paramKey p) p) []).map Prod.fst).Nodup :=
      foldl_mapSet_keys_nodup paramKey id _ [] (by simp)
    have hkeyseq := keys_eq_map_of_inv paramKey _ hinv
    rw [hkeyseq] at hkeys
    have hcomp : ((((endpointNonBodyParams operation pathParams).foldl
        (fun m p => mapSet m (paramKey p) p) []).map Prod.snd).map paramKey)
        = ((((endpointNonBodyParams operation pathParams).foldl
            (fun m p => mapSet m (paramKey p) p) []).map Prod.snd).map
              (fun p => (p.inLoc, p.name))).map (fun q => q.1 ++ ":" ++ q.2) := by
      simp only [List.map_map]
      rfl
    rw [hcomp] at hkeys
    have hpairs := hkeys.of_map
    have hsame : (extractEndpoint path method operation pathParams isV2).parameters.map
        (fun p => (p.inLoc, p.name))
        = (((endpointNonBodyParams operation pathParams).foldl
            (fun m p => mapSet m (paramKey p) p) []).map Prod.snd).map
              (fun p => (p.inLoc, p.name)) := by
      show ((mapValues ((endpointNonBodyParams operation pathParams).foldl
          (fun m p => mapSet m (paramKey p) p) [])).map extractParameter).map
            (fun p => (p.inLoc, p.name)) = _
      rw [List.map_map]
      rfl
    rw [hsame]
    exact hpairs

/-- C10: no endpoint of a parsed spec (either dialect) carries a parameter
whose location is `body`: the normalizer filters body parameters out of the
parameter list, and they surface only through the synthesized request
body. -/
theorem buildParsedSpec_no_body_parameters (document : OpenAPIDocument)
    (source : String) (now : Nat) :
    ∀ kv ∈ (buildParsedSpec document source now).endpoints,
      ∀ p ∈ kv.2.parameters, p.inLoc ≠ "body" := by
  have hend : (buildParsedSpec document source now).endpoints
      = (document.paths?.getD []).foldl
          (fun eps pathEntry =>
            HTTP_METHODS.foldl
              (fun eps method =>
                match pathEntry.2.opFor method with
                | none => eps
                | some operation =>
                  mapSet eps (createEndpointKey method pathEntry.1)
                    (extractEndpoint pathEntry.1 method operation
                      (pathEntry.2.parameters?.getD []) (isSwagger2 document)))
              eps)
          [] := rfl
  rw [hend]
  refine foldl_preserves
    (fun eps : List (String × Endpoint) =>
      ∀ kv ∈ eps, ∀ p ∈ kv.2.parameters, p.inLoc ≠ "body") _ ?_ _ _ ?_
  · intro eps pathEntry hP
    refine foldl_preserves
      (fun eps : List (String × Endpoint) =>
        ∀ kv ∈ eps, ∀ p ∈ kv.2.parameters, p.inLoc ≠ "body") _ ?_ _ _ hP
    intro eps' method hP'
    cases hop : pathEntry.2.opFor method with
    | none => exact hP'
    | some operation =>
      intro kv hkv p hp
      rcases mapSet_mem _ _ _ _ hkv with h | h
      · exact hP' kv h p hp
      · have hsnd : kv.2 = extractEndpoint pathEntry.1 method operation
            (pathEntry.2.parameters?.getD []) (isSwagger2 document) :=
          congrArg Prod.snd h
        rw [hsnd] at hp
        exact extractEndpoint_param_not_body _ _ _ _ _ p hp
  · intro kv hkv
    exact absurd hkv (List.not_mem_nil _)

theorem buildParsedSpec_no_body_parameters_witness :
    (extractParameter queryParamC).inLoc ≠ "body" := by
  have hend : (buildParsedSpec docPets "mem" 0).endpoints = [("post /pets", epPets)] := rfl
  have hmem : ("post /pets", epPets) ∈ (buildParsedSpec docPets "mem" 0).endpoints := by
    rw [hend]
    exact List.mem_singleton.mpr rfl
  have hpars : epPets.parameters = [extractParameter queryParamC] := rfl
  have hpmem : extractParameter queryParamC ∈ epPets.parameters := by
    rw [hpars]
    exact List.mem_singleton.mpr rfl
  exact buildParsedSpec_no_body_parameters docPets "mem" 0 ("post /pets", epPets) hmem
    (extractParameter queryParamC) hpmem

end OpenApiMcp
